import Mathlib

/-!
Verification of the vizseq data page view (`src/vizseq/_view/data_view.py`):
the pagination arithmetic `_get_start_end_idx`, the tolerant slicer `_select`,
and the index pipeline of `VizSeqDataPageView.get` (query filtering, tag
filtering, sorting dispatch, page slicing and the returned counts).

External collaborators of the page view (the text filter, the five sorter
strategies, the scorer registry and the scorers themselves) live outside the
translated file; they are modelled from the spec as explicit capability
parameters, with the sorter contract of the spec (a sorter returns a permutation of
its input indices) carried as a proof field.
-/

namespace VizseqView

/-- `MAX_PAGE_SZ = 100`: the page-size cap applied by `get` before pagination. -/
def MAX_PAGE_SZ : Int := 100

/-- Index normalization of Python list slicing `l[i:j]`: a negative bound
counts from the end of the list, and both bounds are clamped to `[0, n]`. -/
def pyIdx (n : Nat) (i : Int) : Nat :=
  if i < 0 then (i + n).toNat else min i.toNat n

/-- Python list slice `l[i:j]` (step 1), with the Python negative-index and
clamping semantics. -/
def pySlice (l : List α) (i j : Int) : List α :=
  let a := pyIdx l.length i
  let b := pyIdx l.length j
  (l.drop a).take (b - a)

/-- `_get_start_end_idx(n_items, page_sz, page_no)`: asserts
`page_sz > 0 and page_no > 0` (`none` models the `AssertionError`), then
returns the inclusive page bounds
`start_idx = min(page_sz * (page_no - 1), n_items - 1)` and
`end_idx = max(page_sz * page_no - 1, start_idx)`. -/
def _get_start_end_idx (n_items page_sz page_no : Int) : Option (Int × Int) :=
  if page_sz > 0 ∧ page_no > 0 then
    let start_idx := min (page_sz * (page_no - 1)) (n_items - 1)
    let end_idx := max (page_sz * page_no - 1) start_idx
    some (start_idx, end_idx)
  else none

/-- `_select(a_list, indices) = [a_list[i] for i in indices if i < len(a_list)]`:
keeps, in order, the elements at in-range indices and silently skips
out-of-range ones (indices here are the natural numbers of `cur_idx`). -/
def _select (a_list : List α) (indices : List Nat) : List α :=
  indices.filterMap fun i => a_list.get? i

/-- Modelled from the spec: `VizSeqDataSources` (not under `src/`) bundles
parallel text channels and exposes its length, `has_text`, the channel list
`text`, the designated `main_text` channel and (for model outputs) the model
names `text_names`. -/
structure VizSeqDataSources where
  size : Nat
  has_text : Bool
  text : List (List String)
  main_text : List String
  text_names : List String

/-- Modelled from the spec: the external capabilities consumed by the page
view, none of which are under `src/`.
`filt` is `VizSeqFilter.filter(textChannels, query) -> matching indices`;
`scorer_ids` is `get_scorer_ids()`; `sentScores m hyps refs` is
`get_scorer(m)(corpus_level=False, sent_level=True).score(hyps, refs).sent_scores`;
the five sorters are the sorter strategies, whose spec contract
`sort(indices, aux) -> reordered indices (same multiset, new order)` is
carried as permutation proofs. -/
structure VizSeqCaps where
  filt : List (List String) → String → List Nat
  scorer_ids : List String
  sentScores : String → List String → List (List String) → List Float
  randomSort : List Nat → List Nat
  byLenSort : List String → List Nat → List Nat
  byStrSort : List String → List Nat → List Nat
  byMetricSort : List (List (String × Float)) → List Nat → List Nat
  byMetricDiffSort : List (List (String × Float)) → List Nat → List Nat
  randomSort_perm : ∀ l, List.Perm (randomSort l) l
  byLenSort_perm : ∀ t l, List.Perm (byLenSort t l) l
  byStrSort_perm : ∀ t l, List.Perm (byStrSort t l) l
  byMetricSort_perm : ∀ s l, List.Perm (byMetricSort s l) l
  byMetricDiffSort_perm : ∀ s l, List.Perm (byMetricDiffSort s l) l

/-!
Modelled from the spec: the `VizSeqSortingType` selector enum (not under
`src/`), in the order given by the spec: none(0) / random(1) / ref-length(2) /
ref-alphabetical(3) / src-length(4) / src-alphabetical(5) / metric(6) /
metric-diff(7).
-/

namespace VizSeqSortingType

def random : Int := 1

def ref_len : Int := 2

def ref_alphabetical : Int := 3

def src_len : Int := 4

def src_alphabetical : Int := 5

def metric : Int := 6

def metric_diff : Int := 7

end VizSeqSortingType

/-- Modelled from the spec: the integer values of the eight `VizSeqSortingType`
members; the selector-resolution assert of `get` checks membership here. -/
def sortingTypeValues : List Int := [0, 1, 2, 3, 4, 5, 6, 7]

/-- The query stage of `get`: `cur_idx = list(range(len(src)))`, replaced by
`VizSeqFilter.filter(src.text, query)` when `src.has_text`, else by
`VizSeqFilter.filter(ref.text, query)` when `ref.has_text`. -/
def queryStage (caps : VizSeqCaps) (src ref : VizSeqDataSources)
    (query : String) : List Nat :=
  let cur_idx := List.range src.size
  if src.has_text then caps.filt src.text query
  else if ref.has_text then caps.filt ref.text query
  else cur_idx

/-- The tag-filter stage of `get`:
`[idx for idx, flag in zip(cur_idx, is_tag_selected) if flag]`
when `filter_by_tags`, the identity otherwise. -/
def tagStage (cur_idx : List Nat) (is_tag_selected : List Bool)
    (filter_by_tags : Bool) : List Nat :=
  if filter_by_tags then
    ((cur_idx.zip is_tag_selected).filter fun p => p.2).map fun p => p.1
  else cur_idx

/-- The sorting dispatch of `get` on an already-resolved selector value:
each branch calls the corresponding sorter capability; the `src`-based sorts
are skipped when `src` has no text; the metric branches first require
`sorting_metric in get_scorer_ids()` and otherwise leave `cur_idx` untouched,
performing no scoring. -/
def sortStage (caps : VizSeqCaps) (src ref hypo : VizSeqDataSources)
    (models : List String) (sorting : Int) (sorting_metric : String)
    (cur_idx : List Nat) : List Nat :=
  if sorting = VizSeqSortingType.random then caps.randomSort cur_idx
  else if sorting = VizSeqSortingType.ref_len then
    caps.byLenSort ref.main_text cur_idx
  else if sorting = VizSeqSortingType.ref_alphabetical then
    caps.byStrSort ref.main_text cur_idx
  else if sorting = VizSeqSortingType.src_len then
    if src.has_text then caps.byLenSort src.main_text cur_idx else cur_idx
  else if sorting = VizSeqSortingType.src_alphabetical then
    if src.has_text then caps.byStrSort src.main_text cur_idx else cur_idx
  else if sorting = VizSeqSortingType.metric ∨
      sorting = VizSeqSortingType.metric_diff then
    if sorting_metric ∈ caps.scorer_ids then
      let _cur_ref := ref.text.map fun t => _select t cur_idx
      let scores := (models.zip hypo.text).map fun p =>
        (p.1, caps.sentScores sorting_metric (_select p.2 cur_idx) _cur_ref)
      let scoresL := (List.range cur_idx.length).map fun i =>
        models.map fun m => (m, (((scores.lookup m).getD []).getD i 0))
      if sorting = VizSeqSortingType.metric then caps.byMetricSort scoresL cur_idx
      else caps.byMetricDiffSort scoresL cur_idx
    else cur_idx
  else cur_idx

/-- The pagination of `get`: the bounds from `_get_start_end_idx(len(cur_idx),
page_sz, page_no)` applied as the Python slice `cur_idx[start_idx:end_idx + 1]`
(inclusive on both sides). -/
def paginateStage (l : List Nat) (page_sz page_no : Int) : Option (List Nat) :=
  match _get_start_end_idx l.length page_sz page_no with
  | some (s, e) => some (pySlice l s (e + 1))
  | none => none

/-- The index and count fields of the `VizSeqPageData` record returned by
`get`; the display-only fields (visualizations, per-page sentence scores,
language tags, cached source structures) are omitted, as they are produced by
external rendering/scoring capabilities and do not affect the index pipeline. -/
structure VizSeqPageData where
  cur_idx : List Nat
  cur_tags : List String
  n_cur_samples : Nat
  n_samples : Nat
  total_examples : Nat
deriving Repr, DecidableEq

/-- The index pipeline of `VizSeqDataPageView.get`: the opening assert
`page_no > 0 and page_sz > 0`, the clamp `page_sz = min(page_sz, MAX_PAGE_SZ)`,
the query stage, the tag-filter stage, `n_samples = len(cur_idx)`, the
selector-resolution assert (`sorting` must be a `VizSeqSortingType` value),
the sorting dispatch, pagination, `n_cur_samples = len(cur_idx)`,
`cur_tags = _select(tags, cur_idx) if tags else []` and
`total_examples = len(src)`. `none` models an `AssertionError`. -/
def get (caps : VizSeqCaps) (src ref hypo : VizSeqDataSources)
    (page_sz page_no : Int) (query : String) (sorting : Int)
    (sorting_metric : String) (tags : List String)
    (is_tag_selected : List Bool) (filter_by_tags : Bool) :
    Option VizSeqPageData :=
  if page_no > 0 ∧ page_sz > 0 then
    let page_sz := min page_sz MAX_PAGE_SZ
    let models := hypo.text_names
    let cur_idx := queryStage caps src ref query
    let cur_idx := tagStage cur_idx is_tag_selected filter_by_tags
    let n_samples := cur_idx.length
    if sorting ∈ sortingTypeValues then
      let cur_idx := sortStage caps src ref hypo models sorting sorting_metric
        cur_idx
      match paginateStage cur_idx page_sz page_no with
      | some cur_idx =>
        let n_cur_samples := cur_idx.length
        let cur_tags := if tags.isEmpty then [] else _select tags cur_idx
        some ⟨cur_idx, cur_tags, n_cur_samples, n_samples, src.size⟩
      | none => none
    else none
  else none



/-- A concrete capability bundle for instantiating the theorems: a constant
text filter, an empty scorer registry and identity sorters. -/
def capsEx : VizSeqCaps :=
  ⟨fun _ _ => [0, 2, 4], [], fun _ _ _ => [], fun l => l, fun _ l => l,
    fun _ l => l, fun _ l => l, fun _ l => l, fun l => List.Perm.refl l,
    fun _ l => List.Perm.refl l, fun _ l => List.Perm.refl l,
    fun _ l => List.Perm.refl l, fun _ l => List.Perm.refl l⟩

/-- A concrete data source with n examples and no text channel. -/
def dsEx (n : Nat) : VizSeqDataSources :=
  ⟨n, false, [], [], []⟩

/-- A concrete data source with one five-example text channel. -/
def dsT : VizSeqDataSources :=
  ⟨5, true, [["a", "b", "c", "d", "e"]], ["a", "b", "c", "d", "e"], []⟩

theorem start_end_some (n ps pn : Int) (hps : 0 < ps) (hpn : 0 < pn) :
    _get_start_end_idx n ps pn =
      some (min (ps * (pn - 1)) (n - 1),
        max (ps * pn - 1) (min (ps * (pn - 1)) (n - 1))) := by
  simp [_get_start_end_idx, hps, hpn]

theorem pyIdx_coe (n k : Nat) : pyIdx n (k : Int) = min k n := by
  simp [pyIdx]

theorem take_congr {α : Type} (xs : List α) (a b : Nat)
    (h : min a xs.length = min b xs.length) : xs.take a = xs.take b := by
  induction xs generalizing a b with
  | nil => simp
  | cons x t ih =>
    cases a with
    | zero =>
      cases b with
      | zero => rfl
      | succ b => simp at h; omega
    | succ a =>
      cases b with
      | zero => simp at h
      | succ b =>
        simp only [List.take_succ_cons]
        rw [ih a b (by simp at h; omega)]

theorem pySlice_nil {α : Type} (i j : Int) : pySlice ([] : List α) i j = [] := by
  simp [pySlice]

theorem paginate_in_range (l : List Nat) (ps pn : Nat) (hps : 0 < ps)
    (hpn : 0 < pn) (hin : ps * (pn - 1) < l.length) :
    paginateStage l (ps : Int) (pn : Int) =
      some ((l.drop (ps * (pn - 1))).take ps) := by
  obtain ⟨m, rfl⟩ : ∃ m, pn = m + 1 := ⟨pn - 1, by omega⟩
  simp only [Nat.add_sub_cancel] at hin ⊢
  have hexp : ps * (m + 1) = ps * m + ps := by ring
  unfold paginateStage
  rw [start_end_some _ _ _ (by exact_mod_cast hps) (by exact_mod_cast hpn)]
  have e0 : (((m + 1 : Nat) : Int)) - 1 = (m : Int) := by push_cast; ring
  rw [e0, ← Nat.cast_mul, ← Nat.cast_mul]
  have e2 : min ((ps * m : Nat) : Int) ((l.length : Int) - 1) = ((ps * m : Nat) : Int) := by
    omega
  have e3 : max (((ps * (m + 1) : Nat) : Int) - 1) ((ps * m : Nat) : Int) + 1
      = ((ps * (m + 1) : Nat) : Int) := by
    omega
  rw [e2]
  simp only []
  rw [e3]
  unfold pySlice
  rw [pyIdx_coe, pyIdx_coe]
  simp only []
  rw [(by omega : min (ps * m) l.length = ps * m)]
  congr 1
  apply take_congr
  simp only [List.length_drop]
  omega

theorem drop_last_eq {α : Type} (l : List α) (h : l ≠ []) :
    l.drop (l.length - 1) = [l.getLast h] := by
  induction l with
  | nil => simp at h
  | cons a t ih =>
    cases t with
    | nil => simp
    | cons b u =>
      have ht : (b :: u) ≠ [] := by simp
      have hlen : (a :: b :: u).length - 1 = ((b :: u).length - 1) + 1 := by
        simp
      rw [hlen, List.drop_succ_cons, ih ht, List.getLast_cons ht]

theorem paginate_beyond (l : List Nat) (ps pn : Nat) (hps : 0 < ps)
    (hpn : 0 < pn) (hout : l.length ≤ ps * (pn - 1)) :
    paginateStage l (ps : Int) (pn : Int) =
      some ((l.drop (l.length - 1)).take 1) := by
  obtain ⟨m, rfl⟩ : ∃ m, pn = m + 1 := ⟨pn - 1, by omega⟩
  simp only [Nat.add_sub_cancel] at hout ⊢
  have hexp : ps * (m + 1) = ps * m + ps := by ring
  unfold paginateStage
  rw [start_end_some _ _ _ (by exact_mod_cast hps) (by exact_mod_cast hpn)]
  have e0 : (((m + 1 : Nat) : Int)) - 1 = (m : Int) := by push_cast; ring
  rw [e0, ← Nat.cast_mul, ← Nat.cast_mul]
  rcases List.eq_nil_or_concat l with rfl | _
  · simp only [pySlice_nil]
    simp
  · have hn : 0 < l.length := by
      rcases l with _ | _
      · simp_all
      · simp
    have e2 : min ((ps * m : Nat) : Int) ((l.length : Int) - 1)
        = (((l.length - 1 : Nat) : Nat) : Int) := by
      omega
    have e3 : max (((ps * (m + 1) : Nat) : Int) - 1) (((l.length - 1 : Nat) : Nat) : Int) + 1
        = ((ps * (m + 1) : Nat) : Int) := by
      omega
    rw [e2]
    simp only []
    rw [e3]
    unfold pySlice
    rw [pyIdx_coe, pyIdx_coe]
    simp only []
    rw [(by omega : min (l.length - 1) l.length = l.length - 1)]
    congr 1
    apply take_congr
    simp only [List.length_drop]
    omega

theorem sortStage_perm (caps : VizSeqCaps) (src ref hypo : VizSeqDataSources)
    (models : List String) (sorting : Int) (sorting_metric : String)
    (cur_idx : List Nat) :
    List.Perm (sortStage caps src ref hypo models sorting sorting_metric cur_idx)
      cur_idx := by
  unfold sortStage
  split_ifs <;>
    first
      | exact caps.randomSort_perm _
      | exact caps.byLenSort_perm _ _
      | exact caps.byStrSort_perm _ _
      | exact caps.byMetricSort_perm _ _
      | exact caps.byMetricDiffSort_perm _ _
      | exact List.Perm.refl _

theorem sortStage_length (caps : VizSeqCaps) (src ref hypo : VizSeqDataSources)
    (models : List String) (sorting : Int) (sorting_metric : String)
    (cur_idx : List Nat) :
    (sortStage caps src ref hypo models sorting sorting_metric cur_idx).length
      = cur_idx.length :=
  (sortStage_perm caps src ref hypo models sorting sorting_metric cur_idx).length_eq

theorem get_eq_some (caps : VizSeqCaps) (src ref hypo : VizSeqDataSources)
    (ps pn : Int) (query : String) (sorting : Int) (sorting_metric : String)
    (tags : List String) (sel : List Bool) (fbt : Bool)
    (hps : 0 < ps) (hpn : 0 < pn) (hsort : sorting ∈ sortingTypeValues) :
    ∃ pg, paginateStage
        (sortStage caps src ref hypo hypo.text_names sorting sorting_metric
          (tagStage (queryStage caps src ref query) sel fbt))
        (min ps MAX_PAGE_SZ) pn = some pg ∧
      get caps src ref hypo ps pn query sorting sorting_metric tags sel fbt =
        some ⟨pg, (if tags.isEmpty then [] else _select tags pg), pg.length,
          (tagStage (queryStage caps src ref query) sel fbt).length, src.size⟩ := by
  have hps100 : (0 : Int) < min ps MAX_PAGE_SZ := by
    unfold MAX_PAGE_SZ
    omega
  set l2 := sortStage caps src ref hypo hypo.text_names sorting sorting_metric
    (tagStage (queryStage caps src ref query) sel fbt) with hl2
  have hpag : paginateStage l2 (min ps MAX_PAGE_SZ) pn
      = some (pySlice l2
          (min ((min ps MAX_PAGE_SZ) * (pn - 1)) ((l2.length : Int) - 1))
          (max ((min ps MAX_PAGE_SZ) * pn - 1)
            (min ((min ps MAX_PAGE_SZ) * (pn - 1)) ((l2.length : Int) - 1)) + 1)) := by
    unfold paginateStage
    rw [start_end_some _ _ _ hps100 hpn]
  refine ⟨_, hpag, ?_⟩
  unfold get
  rw [if_pos ⟨hpn, hps⟩, if_pos hsort]
  dsimp only
  rw [← hl2, hpag]

theorem select_eq {α : Type} (xs : List α) (indices : List Nat) (d : α) :
    _select xs indices
      = (indices.filter fun i => i < xs.length).map fun i => xs.getD i d := by
  induction indices with
  | nil => rfl
  | cons i rest ih =>
    simp only [_select] at ih ⊢
    simp only [List.get?_eq_getElem?, List.getD_eq_getElem?_getD] at ih
    by_cases h : i < xs.length
    · simp [List.filterMap_cons, List.filter_cons, h, List.getElem?_eq_getElem h, ih]
    · simp [List.filterMap_cons, List.filter_cons, h,
        List.getElem?_eq_none (show xs.length ≤ i by omega), ih]

theorem tagStage_cons (x : Nat) (xs : List Nat) (c : Bool) (cs : List Bool) :
    tagStage (x :: xs) (c :: cs) true
      = (if c then [x] else []) ++ tagStage xs cs true := by
  simp only [tagStage, if_pos, List.zip_cons_cons, List.filter_cons]
  cases c <;> simp

theorem tagStage_positional (l : List Nat) (mask : List Bool)
    (h : mask.length = l.length) :
    tagStage l mask true
      = (List.range l.length).filterMap
          fun i => if mask.getD i false then some (l.getD i 0) else none := by
  induction l generalizing mask with
  | nil =>
    have hm : mask = [] := List.length_eq_zero.mp (by simpa using h)
    subst hm
    simp [tagStage]
  | cons a t ih =>
    cases mask with
    | nil => simp at h
    | cons b ms =>
      have h2 : ms.length = t.length := by simpa using h
      rw [tagStage_cons]
      simp only [List.length_cons]
      rw [List.range_succ_eq_map, List.filterMap_cons, List.filterMap_map]
      have hshift : ((fun i => if (b :: ms).getD i false then
          some ((a :: t).getD i 0) else none) ∘ Nat.succ)
          = fun i => if ms.getD i false then some (t.getD i 0) else none := by
        funext i
        simp [List.getD_cons_succ]
      rw [hshift, ← ih ms h2]
      cases b <;> simp

/-- C1: for every candidate count n, page size ps > 0 and page number pn > 0,
the paginator returns exactly startIndex = min(ps * (pn - 1), n - 1) and
endIndexInclusive = max(ps * pn - 1, startIndex). -/
theorem paginator_start_end_formula (n : Nat) (ps pn : Int)
    (hps : 0 < ps) (hpn : 0 < pn) :
    _get_start_end_idx (n : Int) ps pn =
      some (min (ps * (pn - 1)) ((n : Int) - 1),
        max (ps * pn - 1) (min (ps * (pn - 1)) ((n : Int) - 1))) :=
  start_end_some (n : Int) ps pn hps hpn

theorem paginator_start_end_formula_witness :
    (0 : Int) < 10 ∧ (0 : Int) < 3 ∧
      _get_start_end_idx ((25 : Nat) : Int) 10 3 =
        some (min (10 * (3 - 1)) (((25 : Nat) : Int) - 1),
          max (10 * 3 - 1) (min (10 * (3 - 1)) (((25 : Nat) : Int) - 1))) :=
  ⟨by decide, by decide, paginator_start_end_formula 25 10 3 (by decide) (by decide)⟩

/-- C4: for every candidate index list and every page size ps > 0, the page
slices for page numbers 1 .. ceil(n / ps) are all defined and concatenate, in
order, to the full candidate list: no gaps and no duplicates. -/
theorem pagination_partition (l : List Nat) (ps : Nat) (hps : 0 < ps) :
    ((List.range ((l.length + ps - 1) / ps)).map
        fun k => (paginateStage l (ps : Int) (((k + 1 : Nat)) : Int)).getD []).flatten
      = l
    ∧ ∀ k, k < (l.length + ps - 1) / ps →
        (paginateStage l (ps : Int) (((k + 1 : Nat)) : Int)).isSome := by
  have hmul : ∀ k, k < (l.length + ps - 1) / ps → ps * k < l.length := by
    intro k hk
    have h1 := Nat.div_mul_le_self (l.length + ps - 1) ps
    have h2 : (k + 1) * ps ≤ ((l.length + ps - 1) / ps) * ps :=
      Nat.mul_le_mul (by omega) (le_refl ps)
    have hexp : (k + 1) * ps = k * ps + ps := by ring
    have hc : ps * k = k * ps := by ring
    omega
  have hpage : ∀ k, k < (l.length + ps - 1) / ps →
      paginateStage l (ps : Int) (((k + 1 : Nat)) : Int)
        = some ((l.drop (ps * k)).take ps) := by
    intro k hk
    have h5 := paginate_in_range l ps (k + 1) hps (by omega)
      (by simpa using hmul k hk)
    simpa using h5
  constructor
  · rw [List.map_congr_left (fun k hk => by
      rw [hpage k (List.mem_range.mp hk)])]
    have hchunks : ∀ m : Nat,
        ((List.range m).map fun k => (some ((l.drop (ps * k)).take ps)).getD []).flatten
          = l.take (ps * m) := by
      intro m
      induction m with
      | zero => simp
      | succ m ih =>
        rw [List.range_succ, List.map_append, List.flatten_append, ih]
        have hexp : ps * (m + 1) = ps * m + ps := by ring
        rw [hexp, List.take_add l (ps * m) ps]
        simp
    rw [hchunks]
    apply List.take_of_length_le
    have h3 := Nat.div_add_mod (l.length + ps - 1) ps
    have h4 : (l.length + ps - 1) % ps < ps := Nat.mod_lt _ hps
    omega
  · intro k hk
    rw [hpage k hk]
    rfl

theorem pagination_partition_witness :
    0 < (10 : Nat) ∧
      ((((List.range ((25 + 10 - 1) / 10)).map
          fun k => (paginateStage (List.range 25) ((10 : Nat) : Int)
            (((k + 1 : Nat)) : Int)).getD []).flatten = List.range 25)
      ∧ ∀ k, k < (25 + 10 - 1) / 10 →
          (paginateStage (List.range 25) ((10 : Nat) : Int)
            (((k + 1 : Nat)) : Int)).isSome) := by
  refine ⟨by decide, ?_⟩
  have h := pagination_partition (List.range 25) 10 (by decide)
  simpa using h

/-- C5: a page request strictly beyond the last non-empty page of a non-empty
candidate list never fails: it saturates to the single-element page holding the
last candidate, both effective bounds staying at the last valid position. -/
theorem out_of_range_page_saturates (l : List Nat) (ps pn : Nat) (hps : 0 < ps)
    (hl : l ≠ []) (hbeyond : (l.length + ps - 1) / ps < pn) :
    paginateStage l (ps : Int) (pn : Int) = some [l.getLast hl] := by
  have hn : 0 < l.length := List.length_pos.mpr hl
  have hout : l.length ≤ ps * (pn - 1) := by
    have h1 : (l.length + ps - 1) / ps ≤ pn - 1 := by omega
    have h2 : ((l.length + ps - 1) / ps) * ps ≤ (pn - 1) * ps :=
      Nat.mul_le_mul h1 (le_refl ps)
    have h3 := Nat.div_add_mod (l.length + ps - 1) ps
    have h4 : (l.length + ps - 1) % ps < ps := Nat.mod_lt _ hps
    have hc1 : ps * ((l.length + ps - 1) / ps) = ((l.length + ps - 1) / ps) * ps := by
      ring
    have hc2 : ps * (pn - 1) = (pn - 1) * ps := by ring
    omega
  have hpn : 0 < pn := Nat.lt_of_le_of_lt (Nat.zero_le _) hbeyond
  rw [paginate_beyond l ps pn hps hpn hout, drop_last_eq l hl]
  rfl

theorem out_of_range_page_saturates_witness :
    0 < (2 : Nat) ∧ ([7, 8, 9] : List Nat) ≠ [] ∧ (3 + 2 - 1) / 2 < (5 : Nat) ∧
      paginateStage [7, 8, 9] ((2 : Nat) : Int) ((5 : Nat) : Int) = some [9] :=
  ⟨by decide, by decide, by decide,
    out_of_range_page_saturates [7, 8, 9] 2 5 (by decide) (by decide) (by decide)⟩

/-- C2: for every page size > 0 and page number > 0 and a resolvable sorting
selector, when filtering yields zero candidates, get returns a page with an
empty index list and n_cur_samples = 0 instead of failing. -/
theorem zero_candidates_empty_page (caps : VizSeqCaps)
    (src ref hypo : VizSeqDataSources) (ps pn : Int) (query : String)
    (sorting : Int) (sorting_metric : String) (tags : List String)
    (sel : List Bool) (fbt : Bool)
    (hps : 0 < ps) (hpn : 0 < pn) (hsort : sorting ∈ sortingTypeValues)
    (hempty : tagStage (queryStage caps src ref query) sel fbt = []) :
    ∃ pd, get caps src ref hypo ps pn query sorting sorting_metric tags sel fbt
        = some pd ∧ pd.cur_idx = [] ∧ pd.n_cur_samples = 0 := by
  obtain ⟨pg, hpag, hget⟩ := get_eq_some caps src ref hypo ps pn query sorting
    sorting_metric tags sel fbt hps hpn hsort
  have hl2 : sortStage caps src ref hypo hypo.text_names sorting sorting_metric
      (tagStage (queryStage caps src ref query) sel fbt) = [] := by
    rw [hempty]
    exact List.Perm.eq_nil (sortStage_perm caps src ref hypo hypo.text_names
      sorting sorting_metric [])
  rw [hl2] at hpag
  have hpg : pg = [] := by
    unfold paginateStage at hpag
    rw [start_end_some _ _ _ (by unfold MAX_PAGE_SZ at *; omega) hpn] at hpag
    simp only [pySlice_nil] at hpag
    simpa using hpag.symm
  subst hpg
  exact ⟨_, hget, rfl, rfl⟩

theorem zero_candidates_empty_page_witness :
    (0 : Int) < 10 ∧ (0 : Int) < 3 ∧ (0 : Int) ∈ sortingTypeValues ∧
      tagStage (queryStage capsEx (dsEx 0) (dsEx 0) "x") [] false = [] ∧
      ∃ pd, get capsEx (dsEx 0) (dsEx 0) (dsEx 0) 10 3 "x" 0 "" [] [] false
        = some pd ∧ pd.cur_idx = [] ∧ pd.n_cur_samples = 0 :=
  ⟨by decide, by decide, by decide, by decide,
    zero_candidates_empty_page capsEx (dsEx 0) (dsEx 0) (dsEx 0) 10 3 "x" 0 ""
      [] [] false (by decide) (by decide) (by decide) (by decide)⟩

/-- C3: for every valid request (page size > 0, page number > 0), the returned
page has an example count n_cur_samples at most min(pageSize,
candidatesAfterFilter) and is never negative. -/
theorem page_count_le_min (caps : VizSeqCaps) (src ref hypo : VizSeqDataSources)
    (ps pn : Int) (query : String) (sorting : Int) (sorting_metric : String)
    (tags : List String) (sel : List Bool) (fbt : Bool) (pd : VizSeqPageData)
    (hps : 0 < ps) (hpn : 0 < pn)
    (hget : get caps src ref hypo ps pn query sorting sorting_metric tags sel fbt
      = some pd) :
    (pd.n_cur_samples : Int) ≤ min ps (pd.n_samples : Int)
      ∧ (0 : Int) ≤ (pd.n_cur_samples : Int) := by
  refine ⟨?_, Int.natCast_nonneg _⟩
  by_cases hsort : sorting ∈ sortingTypeValues
  case neg =>
    exfalso
    unfold get at hget
    rw [if_pos ⟨hpn, hps⟩] at hget
    simp only [hsort, if_false, reduceIte] at hget
    exact Option.noConfusion hget
  case pos =>
    obtain ⟨pg, hpag, hget2⟩ := get_eq_some caps src ref hypo ps pn query sorting
      sorting_metric tags sel fbt hps hpn hsort
    rw [hget2] at hget
    injection hget with hpd
    subst hpd
    dsimp only
    set l2 := sortStage caps src ref hypo hypo.text_names sorting sorting_metric
      (tagStage (queryStage caps src ref query) sel fbt) with hl2def
    have hlen : l2.length
        = (tagStage (queryStage caps src ref query) sel fbt).length :=
      sortStage_length caps src ref hypo hypo.text_names sorting sorting_metric _
    have hP0 : (0 : Int) ≤ min ps MAX_PAGE_SZ := by
      unfold MAX_PAGE_SZ
      omega
    have hP : (((min ps MAX_PAGE_SZ).toNat : Nat) : Int) = min ps MAX_PAGE_SZ :=
      Int.toNat_of_nonneg hP0
    have hN : ((pn.toNat : Nat) : Int) = pn := Int.toNat_of_nonneg (by omega)
    rw [← hP, ← hN] at hpag
    have hPpos : 0 < (min ps MAX_PAGE_SZ).toNat := by
      unfold MAX_PAGE_SZ at *
      omega
    have hNpos : 0 < pn.toNat := by omega
    have hPle : (((min ps MAX_PAGE_SZ).toNat : Nat) : Int) ≤ ps := by
      unfold MAX_PAGE_SZ at *
      omega
    rcases Nat.lt_or_ge ((min ps MAX_PAGE_SZ).toNat * (pn.toNat - 1)) l2.length
      with hin | hout
    · rw [paginate_in_range l2 (min ps MAX_PAGE_SZ).toNat pn.toNat hPpos hNpos hin]
        at hpag
      have hpg : pg = (l2.drop ((min ps MAX_PAGE_SZ).toNat * (pn.toNat - 1))).take
          (min ps MAX_PAGE_SZ).toNat := by
        simpa using hpag.symm
      have hlen2 : pg.length ≤ (min ps MAX_PAGE_SZ).toNat ∧ pg.length ≤ l2.length := by
        subst hpg
        simp only [List.length_take, List.length_drop]
        omega
      omega
    · rw [paginate_beyond l2 (min ps MAX_PAGE_SZ).toNat pn.toNat hPpos hNpos hout]
        at hpag
      have hpg : pg = (l2.drop (l2.length - 1)).take 1 := by
        simpa using hpag.symm
      have hlen2 : pg.length ≤ 1 ∧ pg.length ≤ l2.length := by
        subst hpg
        simp only [List.length_take, List.length_drop]
        omega
      omega

theorem page_count_le_min_witness :
    (0 : Int) < 10 ∧ (0 : Int) < 1 ∧
      get capsEx (dsEx 5) (dsEx 5) (dsEx 5) 10 1 "" 0 "" [] [] false
        = some ⟨[0, 1, 2, 3, 4], [], 5, 5, 5⟩ ∧
      (((5 : Nat) : Int) ≤ min 10 (((5 : Nat) : Int)) ∧
        (0 : Int) ≤ ((5 : Nat) : Int)) :=
  ⟨by decide, by decide, by decide,
    page_count_le_min capsEx (dsEx 5) (dsEx 5) (dsEx 5) 10 1 "" 0 "" [] [] false
      ⟨[0, 1, 2, 3, 4], [], 5, 5, 5⟩ (by decide) (by decide) (by decide)⟩

/-- C6: get signals a programming error (assertion failure, modelled as none)
exactly when a caller precondition is violated: page size <= 0, page number
<= 0, or a sorting selector that is not a VizSeqSortingType value; there is no
silent default ordering for an unrecognized sort type. -/
theorem get_none_iff_precondition_violation (caps : VizSeqCaps)
    (src ref hypo : VizSeqDataSources) (ps pn : Int) (query : String)
    (sorting : Int) (sorting_metric : String) (tags : List String)
    (sel : List Bool) (fbt : Bool) :
    get caps src ref hypo ps pn query sorting sorting_metric tags sel fbt = none
      ↔ ps ≤ 0 ∨ pn ≤ 0 ∨ sorting ∉ sortingTypeValues := by
  constructor
  · intro h
    by_contra hc
    push_neg at hc
    obtain ⟨h1, h2, h3⟩ := hc
    obtain ⟨pg, _, hget⟩ := get_eq_some caps src ref hypo ps pn query sorting
      sorting_metric tags sel fbt (by omega) (by omega) h3
    rw [hget] at h
    exact Option.noConfusion h
  · intro h
    unfold get
    by_cases hpp : pn > 0 ∧ ps > 0
    · have hsort : sorting ∉ sortingTypeValues := by
        rcases h with h | h | h
        · exact absurd hpp.2 (by omega)
        · exact absurd hpp.1 (by omega)
        · exact h
      rw [if_pos hpp]
      simp only [hsort, if_false, reduceIte]
    · rw [if_neg hpp]

/-- C7: when the sorting selector is metric or metric-diff but the sorting
metric is not a registered scorer id, sorting is a no-op (the candidate order
passed to pagination is the filtered order, no sort-time scoring happens) and
the request still succeeds. -/
theorem unknown_sort_metric_noop (caps : VizSeqCaps)
    (src ref hypo : VizSeqDataSources) (ps pn : Int) (query : String)
    (sorting : Int) (sorting_metric : String) (tags : List String)
    (sel : List Bool) (fbt : Bool)
    (hps : 0 < ps) (hpn : 0 < pn)
    (hsel : sorting = VizSeqSortingType.metric ∨
      sorting = VizSeqSortingType.metric_diff)
    (hm : sorting_metric ∉ caps.scorer_ids) :
    sortStage caps src ref hypo hypo.text_names sorting sorting_metric
        (tagStage (queryStage caps src ref query) sel fbt)
      = tagStage (queryStage caps src ref query) sel fbt
    ∧ (get caps src ref hypo ps pn query sorting sorting_metric tags sel
        fbt).isSome := by
  have hnoop : ∀ idx : List Nat,
      sortStage caps src ref hypo hypo.text_names sorting sorting_metric idx
        = idx := by
    intro idx
    unfold sortStage
    rcases hsel with rfl | rfl <;>
      simp [VizSeqSortingType.random, VizSeqSortingType.ref_len,
        VizSeqSortingType.ref_alphabetical, VizSeqSortingType.src_len,
        VizSeqSortingType.src_alphabetical, VizSeqSortingType.metric,
        VizSeqSortingType.metric_diff, hm]
  have hsort : sorting ∈ sortingTypeValues := by
    rcases hsel with rfl | rfl <;> decide
  obtain ⟨pg, hpag, hget⟩ := get_eq_some caps src ref hypo ps pn query sorting
    sorting_metric tags sel fbt hps hpn hsort
  refine ⟨hnoop _, ?_⟩
  rw [hget]
  rfl

theorem unknown_sort_metric_noop_witness :
    (0 : Int) < 10 ∧ (0 : Int) < 1 ∧
      ((6 : Int) = VizSeqSortingType.metric ∨
        (6 : Int) = VizSeqSortingType.metric_diff) ∧
      "bleu" ∉ capsEx.scorer_ids ∧
      (sortStage capsEx dsT (dsEx 5) (dsEx 5) (dsEx 5).text_names 6 "bleu"
          (tagStage (queryStage capsEx dsT (dsEx 5) "a") [] false)
        = tagStage (queryStage capsEx dsT (dsEx 5) "a") [] false
      ∧ (get capsEx dsT (dsEx 5) (dsEx 5) 10 1 "a" 6 "bleu" [] []
          false).isSome) :=
  ⟨by decide, by decide, by decide, by decide,
    unknown_sort_metric_noop capsEx dsT (dsEx 5) (dsEx 5) 10 1 "a" 6 "bleu"
      [] [] false (by decide) (by decide) (by decide) (by decide)⟩

/-- C8: tag filtering is applied to the query-filtered candidate list, the
i-th mask entry matched against the i-th post-filter candidate (not against
original corpus positions): exactly the post-filter candidates at truthy mask
positions are kept, in order. -/
theorem tag_filter_post_filter_aligned (caps : VizSeqCaps)
    (src ref : VizSeqDataSources) (query : String) (mask : List Bool)
    (h : mask.length = (queryStage caps src ref query).length) :
    tagStage (queryStage caps src ref query) mask true
      = (List.range (queryStage caps src ref query).length).filterMap
          fun i => if mask.getD i false then
            some ((queryStage caps src ref query).getD i 0) else none :=
  tagStage_positional (queryStage caps src ref query) mask h

theorem tag_filter_post_filter_aligned_witness :
    ([true, false, true] : List Bool).length
        = (queryStage capsEx dsT (dsEx 5) "a").length ∧
      tagStage (queryStage capsEx dsT (dsEx 5) "a") [true, false, true] true
        = (List.range (queryStage capsEx dsT (dsEx 5) "a").length).filterMap
            fun i => if ([true, false, true] : List Bool).getD i false then
              some ((queryStage capsEx dsT (dsEx 5) "a").getD i 0) else none :=
  ⟨by decide,
    tag_filter_post_filter_aligned capsEx dsT (dsEx 5) "a" [true, false, true]
      (by decide)⟩

/-- C9: candidate selection follows the fallback chain: filter on the source
text when the source has text, else on the reference text when the reference
has text, else the candidates are the full unfiltered range [0, corpus length). -/
theorem query_filter_fallback_chain (caps : VizSeqCaps)
    (src ref : VizSeqDataSources) (query : String) :
    (src.has_text = true →
      queryStage caps src ref query = caps.filt src.text query)
    ∧ (src.has_text = false → ref.has_text = true →
      queryStage caps src ref query = caps.filt ref.text query)
    ∧ (src.has_text = false → ref.has_text = false →
      ∀ i : Nat, i ∈ queryStage caps src ref query ↔ i < src.size) := by
  refine ⟨fun h1 => ?_, fun h1 h2 => ?_, fun h1 h2 i => ?_⟩
  · simp [queryStage, h1]
  · simp [queryStage, h1, h2]
  · simp [queryStage, h1, h2, List.mem_range]

theorem query_filter_fallback_chain_witness :
    ((dsEx 5).has_text = false) ∧
      (∀ i : Nat, i ∈ queryStage capsEx (dsEx 5) (dsEx 5) "q" ↔ i < (dsEx 5).size) :=
  ⟨by decide,
    (query_filter_fallback_chain capsEx (dsEx 5) (dsEx 5) "q").2.2 (by decide)
      (by decide)⟩

/-- C10: _select is total and tolerant of length mismatches: it returns, in
order, exactly the elements at the in-range indices, silently skipping
out-of-range indices, for every default value d. -/
theorem select_total_skips_out_of_range {α : Type} (xs : List α)
    (indices : List Nat) (d : α) :
    _select xs indices
      = (indices.filter fun i => i < xs.length).map fun i => xs.getD i d :=
  select_eq xs indices d

theorem get_none_iff_precondition_violation_witness :
    (get capsEx (dsEx 5) (dsEx 5) (dsEx 5) 0 1 "" 0 "" [] [] false = none
      ↔ (0 : Int) ≤ 0 ∨ (1 : Int) ≤ 0 ∨ (0 : Int) ∉ sortingTypeValues) :=
  get_none_iff_precondition_violation capsEx (dsEx 5) (dsEx 5) (dsEx 5) 0 1 ""
    0 "" [] [] false

end VizseqView
